import Mathlib

/-!
Shallow embedding of `dashboard_vacinacao.py`: the record loader
(`load_data`), the cascading filter pipeline built from the sidebar
widgets, and the aggregations feeding the KPI metrics and charts.
Machine floats appear only in the display formatting of the dose total;
that formatting is modelled on the exact rational value.
-/

namespace RegistroVacinacao

/-- A calendar date as produced by parsing the `dt_vacina` column with the
fixed `%d/%m/%Y` pattern (line 42).  The pattern carries no time-of-day,
so every stored date is date-only by construction. -/
structure Date where
  year : Nat
  month : Nat
  day : Nat
deriving DecidableEq

/-- Comparison used by the date filter (line 116): `datetime.date` compares
lexicographically by year, month, day. -/
def Date.le (a b : Date) : Bool :=
  decide (a.year < b.year) ||
    (decide (a.year = b.year) &&
      (decide (a.month < b.month) ||
        (decide (a.month = b.month) && decide (a.day ≤ b.day))))

/-- Split a character list at each slash, keeping empty pieces. -/
def splitSlash : List Char → List (List Char)
  | [] => [[]]
  | c :: cs =>
    if c = '/' then [] :: splitSlash cs
    else
      match splitSlash cs with
      | [] => [[c]]
      | p :: ps => (c :: p) :: ps

def isDigitChar (c : Char) : Bool := decide ('0' ≤ c) && decide (c ≤ '9')

def digitsValAux (acc : Nat) : List Char → Nat
  | [] => acc
  | c :: cs => digitsValAux (acc * 10 + (c.toNat - '0'.toNat)) cs

/-- Read a nonempty all-digit character list as a natural number. -/
def readNatDigits (cs : List Char) : Option Nat :=
  if cs ≠ [] ∧ cs.all isDigitChar then some (digitsValAux 0 cs) else none

def isLeapYear (y : Nat) : Bool :=
  decide (y % 4 = 0) && (decide (y % 100 ≠ 0) || decide (y % 400 = 0))

def daysInMonth (y m : Nat) : Nat :=
  if m = 2 then (if isLeapYear y then 29 else 28)
  else if m = 4 ∨ m = 6 ∨ m = 9 ∨ m = 11 then 30
  else 31

/-- `pd.to_datetime(value, format='%d/%m/%Y', errors='coerce')` on one cell
(line 42): `%d` matches one or two digits, `%m` one or two digits, `%Y`
exactly four digits, the three separated by slashes; the triple must form a
real calendar date (month 1-12, day within the month, year at least 1).
Any other value coerces to the null marker NaT, here `none`. -/
def parseDate (s : String) : Option Date :=
  match splitSlash s.toList with
  | [ds, ms, ys] =>
    match readNatDigits ds, readNatDigits ms, readNatDigits ys with
    | some d, some m, some y =>
      if ds.length ≤ 2 ∧ ms.length ≤ 2 ∧ ys.length = 4 ∧
          1 ≤ y ∧ 1 ≤ m ∧ m ≤ 12 ∧ 1 ≤ d ∧ d ≤ daysInMonth y m
      then some ⟨y, m, d⟩ else none
    | _, _, _ => none
  | _ => none

def trimSpaces (cs : List Char) : List Char :=
  ((cs.dropWhile (· = ' ')).reverse.dropWhile (· = ' ')).reverse

/-- One cell of the age column under `pd.to_numeric(..., errors='coerce')`
followed by `.astype(int)` (line 65): an optional sign, then an integer
part with an optional fractional part; the int conversion truncates toward
zero, so the value kept is the signed integer part.  Every other text
(exponents aside, which the dashboard's data never uses) coerces to NaN,
here `none`. -/
def parseAge (s : String) : Option Int :=
  let cs := trimSpaces s.toList
  let signNeg : Bool := match cs with | '-' :: _ => true | _ => false
  let body : List Char :=
    match cs with
    | '-' :: rest => rest
    | '+' :: rest => rest
    | _ => cs
  let intDigits := body.takeWhile isDigitChar
  let rest := body.dropWhile isDigitChar
  let ok : Bool :=
    match rest with
    | [] => !intDigits.isEmpty
    | '.' :: frac => frac.all isDigitChar && (!intDigits.isEmpty || !frac.isEmpty)
    | _ => false
  if ok then
    let n : Int := Int.ofNat (digitsValAux 0 intDigits)
    some (if signNeg then -n else n)
  else none

/-- One raw CSV row, restricted to the columns the dashboard reads, all as
the text found in the semicolon-delimited latin1 file. -/
structure RawRow where
  dt_vacina : String
  tp_sexo_paciente : String
  no_raca_cor_paciente : String
  sg_uf_estabelecimento : String
  ds_vacina : String
  ds_vacina_fabricante : String
  nu_idade_paciente : String
deriving DecidableEq

/-- One normalized vaccination record after `load_data`. -/
structure Record where
  dt_vacina : Date
  tp_sexo_paciente : String
  no_raca_cor_paciente : String
  sg_uf_estabelecimento : String
  ds_vacina : String
  ds_vacina_fabricante : String
  nu_idade_paciente : Int
  dose : Nat
deriving DecidableEq

/-- Per-row normalization inside `load_data` (lines 42-65): parse the date
(rows whose date coerces to NaT are removed by `dropna`), add the constant
`Dose = 1`, and coerce the age with `to_numeric(...).fillna(0)`.  The
`astype('category')` and small-int recodings are memory-layout changes with
no value-level effect and are not modelled. -/
def normalizeRow (raw : RawRow) : Option Record :=
  (parseDate raw.dt_vacina).map fun d =>
    { dt_vacina := d
      tp_sexo_paciente := raw.tp_sexo_paciente
      no_raca_cor_paciente := raw.no_raca_cor_paciente
      sg_uf_estabelecimento := raw.sg_uf_estabelecimento
      ds_vacina := raw.ds_vacina
      ds_vacina_fabricante := raw.ds_vacina_fabricante
      nu_idade_paciente := (parseAge raw.nu_idade_paciente).getD 0
      dose := 1 }

/-- `load_data` (lines 27-81) on an already-read list of raw rows: rows
whose date fails to parse are dropped, the rest are normalized. -/
def load_data (rows : List RawRow) : List Record :=
  rows.filterMap normalizeRow

/-- The sidebar selections (lines 106-163): the chosen date interval (the
`date_input` widget may momentarily hold fewer than two endpoints), the
four multiselect selections, and the age slider interval. -/
structure FilterState where
  date_range : List Date
  selected_sexo : List String
  selected_raca_cor : List String
  selected_uf_aplicacao : List String
  selected_tipo_vacina : List String
  idade_range : Int × Int
deriving DecidableEq

/-- Lines 114-119: when the date widget holds exactly two endpoints the
rows are restricted to the inclusive interval on the date-only value of
`dt_vacina`; otherwise the full DataFrame is the base view. -/
def viewAfterDate (df : List Record) (fs : FilterState) : List Record :=
  match fs.date_range with
  | [start_date, end_date] =>
    df.filter fun r => Date.le start_date r.dt_vacina && Date.le r.dt_vacina end_date
  | _ => df

/-- Line 128: `df_filtered[df_filtered['tp_sexo_paciente'].isin(selected_sexo)]`. -/
def viewAfterSexo (df : List Record) (fs : FilterState) : List Record :=
  (viewAfterDate df fs).filter fun r => decide (r.tp_sexo_paciente ∈ fs.selected_sexo)

/-- Line 136: membership filter on `no_raca_cor_paciente`. -/
def viewAfterRacaCor (df : List Record) (fs : FilterState) : List Record :=
  (viewAfterSexo df fs).filter fun r => decide (r.no_raca_cor_paciente ∈ fs.selected_raca_cor)

/-- Line 144: membership filter on `sg_uf_estabelecimento`. -/
def viewAfterUf (df : List Record) (fs : FilterState) : List Record :=
  (viewAfterRacaCor df fs).filter fun r => decide (r.sg_uf_estabelecimento ∈ fs.selected_uf_aplicacao)

/-- Line 152: membership filter on `ds_vacina`. -/
def viewAfterVacina (df : List Record) (fs : FilterState) : List Record :=
  (viewAfterUf df fs).filter fun r => decide (r.ds_vacina ∈ fs.selected_tipo_vacina)

/-- The age predicate of line 164: inclusive integer interval. -/
def agePass (lo hi : Int) (r : Record) : Bool :=
  decide (lo ≤ r.nu_idade_paciente) && decide (r.nu_idade_paciente ≤ hi)

/-- Line 164: the age-range filter, the last cascade stage. -/
def viewAfterIdade (df : List Record) (fs : FilterState) : List Record :=
  (viewAfterVacina df fs).filter (agePass fs.idade_range.1 fs.idade_range.2)

/-- `Series.unique()`: the distinct values of a column in order of first
appearance (on a categorical column pandas likewise reports the observed
values in appearance order). -/
def pdUniqueAux {α : Type} [DecidableEq α] (seen : List α) : List α → List α
  | [] => []
  | a :: l =>
    if a ∈ seen then pdUniqueAux seen l
    else a :: pdUniqueAux (seen ++ [a]) l

def pdUnique {α : Type} [DecidableEq α] (l : List α) : List α :=
  pdUniqueAux [] l

/-- Ordered insertion for the insertion sort below. -/
def insertLe {α : Type} (le : α → α → Bool) (a : α) : List α → List α
  | [] => [a]
  | b :: l => if le a b then a :: b :: l else b :: insertLe le a l

/-- Insertion sort.  `sort_values` uses an unstable quicksort, so the
source fixes no order among ties; this picks one deterministic order
agreeing with it on the sort key. -/
def sortByLe {α : Type} (le : α → α → Bool) : List α → List α
  | [] => []
  | a :: l => insertLe le a (sortByLe le l)

/-- Lexicographic order on character lists by code point, the order Python
uses to sort strings. -/
def listCharLe : List Char → List Char → Bool
  | [], _ => true
  | _ :: _, [] => false
  | a :: as, b :: bs =>
    if a.toNat < b.toNat then true
    else if b.toNat < a.toNat then false
    else listCharLe as bs

def strLe (a b : String) : Bool := listCharLe a.toList b.toList

/-- The category dictionary that `astype('category')` fixes in `load_data`
(lines 53-59): the distinct values of the column over the loaded dataset,
in ascending order.  `groupby` on a categorical column produces one group
per category in this order, including categories absent from the grouped
frame. -/
def catKeys (df : List Record) (f : Record → String) : List String :=
  sortByLe strLe (pdUnique (df.map f))

/-- `view.groupby(col)['Dose'].sum().reset_index()` for a categorical
column with the given categories: one row per category, holding the sum of
`Dose` over the view's rows in that category (0 for a category with no
surviving rows). -/
def groupbySum (keys : List String) (view : List Record) (f : Record → String) :
    List (String × Nat) :=
  keys.map fun k => (k, ((view.filter fun r => decide (f r = k)).map Record.dose).sum)

/-- `sort_values(by='Dose', ascending=False)` (lines 197 and 263). -/
def sortDescByDose (l : List (String × Nat)) : List (String × Nat) :=
  sortByLe (fun a b => decide (b.2 ≤ a.2)) l

/-- `sum(table.values())`: the total of an aggregate table's dose column. -/
def sumVals (l : List (String × Nat)) : Nat :=
  (l.map Prod.snd).sum

def digitChar (d : Nat) : Char := Char.ofNat ('0'.toNat + d)

def natDigitsAux : Nat → Nat → List Char
  | 0, _ => []
  | fuel + 1, n =>
    if n < 10 then [digitChar n]
    else natDigitsAux fuel (n / 10) ++ [digitChar (n % 10)]

/-- Decimal digits of a natural number, most significant first. -/
def natDigits (n : Nat) : List Char := natDigitsAux (n + 1) n

/-- Insert a comma after every three digits, working on the reversed digit
list (least significant digit first). -/
def commaRev : List Char → Nat → List Char
  | [], _ => []
  | c :: cs, k =>
    if k = 2 then c :: (if cs.isEmpty then [] else ',' :: commaRev cs 0)
    else c :: commaRev cs (k + 1)

/-- Python `f"{n:,.0f}"` for a natural number: the decimal digits grouped
in threes by commas. -/
def commaSep (n : Nat) : String :=
  String.mk ((commaRev (natDigits n).reverse 0).reverse)

/-- Python `f"{n/1_000_000:.2f} Mi"`, modelled on the exact quotient: the
number of hundredths of a million is n/10^4 rounded half-to-even (the
float formatting rounds the binary value, which agrees at every point the
specification tests). -/
def fixed2Mi (n : Nat) : String :=
  let q := n / 10000
  let r := n % 10000
  let hund :=
    if 5000 < r then q + 1
    else if r < 5000 then q
    else if q % 2 = 0 then q else q + 1
  String.mk (natDigits (hund / 100) ++
    ['.', digitChar (hund % 100 / 10), digitChar (hund % 100 % 10), ' ', 'M', 'i'])

/-- Line 181: `f"{n:,.0f}" if n < 1_000_000 else f"{n/1_000_000:.2f} Mi"`. -/
def formatTotalDoses (n : Nat) : String :=
  if n < 1000000 then commaSep n else fixed2Mi n

/-- The numbers and tables computed below the emptiness check: the KPI
block (lines 174-183) and the four aggregate tables (lines 195-197, 235,
248, 261-263). -/
structure Summary where
  total_doses : Nat
  total_estados : Nat
  total_fabricantes : Nat
  display_total : String
  df_uf_doses : List (String × Nat)
  df_raca_doses : List (String × Nat)
  df_sexo_doses : List (String × Nat)
  df_fabricante_doses : List (String × Nat)
deriving DecidableEq

/-- The aggregation stage over the final filtered view; `df` supplies the
category dictionaries fixed at load time. -/
def mkSummary (df view : List Record) : Summary :=
  { total_doses := view.length
    total_estados := (pdUnique (view.map Record.sg_uf_estabelecimento)).length
    total_fabricantes := (pdUnique (view.map Record.ds_vacina_fabricante)).length
    display_total := formatTotalDoses view.length
    df_uf_doses :=
      sortDescByDose (groupbySum (catKeys df Record.sg_uf_estabelecimento) view
        Record.sg_uf_estabelecimento)
    df_raca_doses :=
      groupbySum (catKeys df Record.no_raca_cor_paciente) view Record.no_raca_cor_paciente
    df_sexo_doses :=
      groupbySum (catKeys df Record.tp_sexo_paciente) view Record.tp_sexo_paciente
    df_fabricante_doses :=
      (sortDescByDose (groupbySum (catKeys df Record.ds_vacina_fabricante) view
        Record.ds_vacina_fabricante)).take 10 }

/-- How one script run ends: `sliderCrash` is the uncaught ValueError of
`int(...min())` on an empty frame (lines 156-157), `emptyResult` the
warning-and-stop of lines 168-170, `rendered` the full dashboard. -/
inductive RunOutcome where
  | sliderCrash
  | emptyResult
  | rendered (s : Summary)
deriving DecidableEq

/-- What one run hands the presentation boundary: the option list offered
by each multiselect, the age-slider bounds when they were computable, and
the outcome. -/
structure DashboardRun where
  options_sexo : List String
  options_raca_cor : List String
  options_uf_aplicacao : List String
  options_tipo_vacina : List String
  slider_bounds : Option (Int × Int)
  outcome : RunOutcome
deriving DecidableEq

def minAges (acc : Int) : List Record → Int
  | [] => acc
  | r :: l => minAges (min acc r.nu_idade_paciente) l

def maxAges (acc : Int) : List Record → Int
  | [] => acc
  | r :: l => maxAges (max acc r.nu_idade_paciente) l

/-- Lines 154-275 after the option widgets: the age-slider bounds (lines
156-157) are `int(min)` and `int(max)` of the age column and raise on an
empty frame before the `df_filtered.empty` check of line 168 can run; then
the age filter, the emptiness check, and the aggregation. -/
def runTail (df : List Record) (fs : FilterState) : Option (Int × Int) × RunOutcome :=
  match viewAfterVacina df fs with
  | [] => (none, .sliderCrash)
  | r :: rest =>
    let lo := minAges r.nu_idade_paciente rest
    let hi := maxAges r.nu_idade_paciente rest
    let v5 := viewAfterIdade df fs
    if v5.isEmpty then (some (lo, hi), .emptyResult)
    else (some (lo, hi), .rendered (mkSummary df v5))

/-- The script body from the date widget to the chart block (lines
106-275): each multiselect offers the distinct values of its column over
the view filtered by the stages before it, and the run ends as `runTail`
describes. -/
def runDashboard (df : List Record) (fs : FilterState) : DashboardRun :=
  { options_sexo := pdUnique ((viewAfterDate df fs).map Record.tp_sexo_paciente)
    options_raca_cor := pdUnique ((viewAfterSexo df fs).map Record.no_raca_cor_paciente)
    options_uf_aplicacao := pdUnique ((viewAfterRacaCor df fs).map Record.sg_uf_estabelecimento)
    options_tipo_vacina := pdUnique ((viewAfterUf df fs).map Record.ds_vacina)
    slider_bounds := (runTail df fs).1
    outcome := (runTail df fs).2 }

/-- The filterable categorical dimensions, in cascade order. -/
inductive Dim where
  | sexo
  | racaCor
  | ufAplicacao
  | tipoVacina
deriving DecidableEq

def dimProj : Dim → Record → String
  | .sexo => Record.tp_sexo_paciente
  | .racaCor => Record.no_raca_cor_paciente
  | .ufAplicacao => Record.sg_uf_estabelecimento
  | .tipoVacina => Record.ds_vacina

/-- Stage `n` of the cascade as the specification words it: stage 0 is the
date range, stages 1-4 the categorical dimensions in the fixed order date,
sex, race, facility state, vaccine type. -/
def cascadeStage (fs : FilterState) (n : Nat) (v : List Record) : List Record :=
  match n with
  | 0 =>
    (match fs.date_range with
     | [start_date, end_date] =>
       v.filter fun r => Date.le start_date r.dt_vacina && Date.le r.dt_vacina end_date
     | _ => v)
  | 1 => v.filter fun r => decide (r.tp_sexo_paciente ∈ fs.selected_sexo)
  | 2 => v.filter fun r => decide (r.no_raca_cor_paciente ∈ fs.selected_raca_cor)
  | 3 => v.filter fun r => decide (r.sg_uf_estabelecimento ∈ fs.selected_uf_aplicacao)
  | 4 => v.filter fun r => decide (r.ds_vacina ∈ fs.selected_tipo_vacina)
  | _ => v

/-- The view produced by the first `n` cascade stages. -/
def cascadePrefix (df : List Record) (fs : FilterState) : Nat → List Record
  | 0 => df
  | n + 1 => cascadeStage fs n (cascadePrefix df fs n)

/-- The index of the stage that filters on a dimension, so that
`cascadePrefix df fs (dimStageIndex d)` is the view produced by the stages
strictly preceding dimension `d`. -/
def dimStageIndex : Dim → Nat
  | .sexo => 1
  | .racaCor => 2
  | .ufAplicacao => 3
  | .tipoVacina => 4

theorem mem_pdUniqueAux {α : Type} [DecidableEq α] (a : α) (l : List α) :
    ∀ seen : List α, a ∈ pdUniqueAux seen l ↔ a ∈ l ∧ a ∉ seen := by
  induction l with
  | nil => intro seen; simp [pdUniqueAux]
  | cons b l ih =>
    intro seen
    by_cases hb : b ∈ seen
    · rw [pdUniqueAux, if_pos hb, ih seen, List.mem_cons]
      have hab : a = b → a ∈ seen := fun h => h ▸ hb
      tauto
    · rw [pdUniqueAux, if_neg hb, List.mem_cons, ih (seen ++ [b])]
      have hmemapp : a ∈ seen ++ [b] ↔ a ∈ seen ∨ a = b := by simp
      have hab : a = b → a ∉ seen := fun h => h ▸ hb
      rw [List.mem_cons, hmemapp]
      tauto

theorem nodup_pdUniqueAux {α : Type} [DecidableEq α] (l : List α) :
    ∀ seen : List α, (pdUniqueAux seen l).Nodup := by
  induction l with
  | nil => intro seen; simp [pdUniqueAux]
  | cons b l ih =>
    intro seen
    by_cases hb : b ∈ seen
    · rw [pdUniqueAux, if_pos hb]; exact ih seen
    · rw [pdUniqueAux, if_neg hb]
      refine List.nodup_cons.mpr ⟨?_, ih (seen ++ [b])⟩
      intro hmem
      exact ((mem_pdUniqueAux b l (seen ++ [b])).mp hmem).2 (by simp)

theorem mem_pdUnique {α : Type} [DecidableEq α] (a : α) (l : List α) :
    a ∈ pdUnique l ↔ a ∈ l := by
  rw [pdUnique, mem_pdUniqueAux]
  simp

theorem nodup_pdUnique {α : Type} [DecidableEq α] (l : List α) :
    (pdUnique l).Nodup :=
  nodup_pdUniqueAux l []

theorem perm_insertLe {α : Type} (le : α → α → Bool) (a : α) (l : List α) :
    List.Perm (insertLe le a l) (a :: l) := by
  induction l with
  | nil => rfl
  | cons b l ih =>
    rw [insertLe]
    split
    · exact List.Perm.refl _
    · exact (List.Perm.cons b ih).trans (List.Perm.swap a b l)

theorem perm_sortByLe {α : Type} (le : α → α → Bool) (l : List α) :
    List.Perm (sortByLe le l) l := by
  induction l with
  | nil => rfl
  | cons a l ih =>
    rw [sortByLe]
    exact (perm_insertLe le a (sortByLe le l)).trans (List.Perm.cons a ih)

theorem pairwise_insertLe {α : Type} (le : α → α → Bool)
    (htrans : ∀ x y z, le x y = true → le y z = true → le x z = true)
    (htot : ∀ x y, le x y = true ∨ le y x = true)
    (a : α) (l : List α) (hl : l.Pairwise fun x y => le x y = true) :
    (insertLe le a l).Pairwise fun x y => le x y = true := by
  induction l with
  | nil => simp [insertLe]
  | cons b l ih =>
    rcases List.pairwise_cons.mp hl with ⟨hb, hl'⟩
    rw [insertLe]
    split
    case isTrue h =>
      refine List.pairwise_cons.mpr ⟨?_, hl⟩
      intro c hc
      rcases List.mem_cons.mp hc with rfl | hc'
      · exact h
      · exact htrans a b c h (hb c hc')
    case isFalse h =>
      have hba : le b a = true := (htot a b).resolve_left h
      refine List.pairwise_cons.mpr ⟨?_, ih hl'⟩
      intro c hc
      rcases List.mem_cons.mp ((perm_insertLe le a l).mem_iff.mp hc) with rfl | hc'
      · exact hba
      · exact hb c hc'

theorem pairwise_sortByLe {α : Type} (le : α → α → Bool)
    (htrans : ∀ x y z, le x y = true → le y z = true → le x z = true)
    (htot : ∀ x y, le x y = true ∨ le y x = true)
    (l : List α) :
    (sortByLe le l).Pairwise fun x y => le x y = true := by
  induction l with
  | nil => simp [sortByLe]
  | cons a l ih =>
    rw [sortByLe]
    exact pairwise_insertLe le htrans htot a (sortByLe le l) ih

theorem viewAfterDate_sublist (df : List Record) (fs : FilterState) :
    (viewAfterDate df fs).Sublist df := by
  unfold viewAfterDate
  split
  · exact List.filter_sublist df
  · exact List.Sublist.refl df

theorem viewAfterVacina_sublist (df : List Record) (fs : FilterState) :
    (viewAfterVacina df fs).Sublist df := by
  unfold viewAfterVacina viewAfterUf viewAfterRacaCor viewAfterSexo
  exact ((((List.filter_sublist _).trans (List.filter_sublist _)).trans
    (List.filter_sublist _)).trans (List.filter_sublist _)).trans
    (viewAfterDate_sublist df fs)

theorem viewAfterIdade_sublist (df : List Record) (fs : FilterState) :
    (viewAfterIdade df fs).Sublist df := by
  unfold viewAfterIdade
  exact (List.filter_sublist _).trans (viewAfterVacina_sublist df fs)

theorem mem_load_data {rows : List RawRow} {rec : Record} (h : rec ∈ load_data rows) :
    ∃ raw ∈ rows, normalizeRow raw = some rec := by
  rcases List.mem_filterMap.mp h with ⟨raw, hmem, hn⟩
  exact ⟨raw, hmem, hn⟩

theorem normalizeRow_some {raw : RawRow} {rec : Record} (h : normalizeRow raw = some rec) :
    parseDate raw.dt_vacina = some rec.dt_vacina ∧
      rec.nu_idade_paciente = (parseAge raw.nu_idade_paciente).getD 0 ∧ rec.dose = 1 := by
  unfold normalizeRow at h
  rcases Option.map_eq_some'.mp h with ⟨d, hd, hrec⟩
  subst hrec
  exact ⟨hd, rfl, rfl⟩

theorem dose_of_mem_load_data {rows : List RawRow} {rec : Record}
    (h : rec ∈ load_data rows) : rec.dose = 1 := by
  rcases mem_load_data h with ⟨raw, _, hn⟩
  exact (normalizeRow_some hn).2.2

theorem sumVals_map_pair (keys : List String) (g : String → Nat) :
    sumVals (keys.map fun k => (k, g k)) = (keys.map g).sum := by
  rw [sumVals, List.map_map]
  rfl

theorem sum_map_ite (c : Nat) (a : String) (keys : List String)
    (hnd : keys.Nodup) (ha : a ∈ keys) :
    (keys.map fun k => if a = k then c else 0).sum = c := by
  induction keys with
  | nil => cases ha
  | cons k ks ih =>
    rcases List.nodup_cons.mp hnd with ⟨hk, hnd'⟩
    rcases List.mem_cons.mp ha with rfl | ha'
    · rw [List.map_cons, List.sum_cons, if_pos rfl]
      have hz : (ks.map fun x => if a = x then c else 0).sum = 0 := by
        apply List.sum_eq_zero
        intro x hx
        rcases List.mem_map.mp hx with ⟨k', hk', hval⟩
        have hne : a ≠ k' := fun hEq => hk (hEq.symm ▸ hk')
        rw [if_neg hne] at hval
        exact hval.symm
      rw [hz]
      rfl
    · have hne : a ≠ k := fun h => hk (h ▸ ha')
      rw [List.map_cons, List.sum_cons, if_neg hne, ih hnd' ha', Nat.zero_add]

theorem sumVals_groupbySum_cons (keys : List String) (f : Record → String)
    (r : Record) (v : List Record) :
    sumVals (groupbySum keys (r :: v) f) =
      (keys.map fun k => if f r = k then r.dose else 0).sum +
        sumVals (groupbySum keys v f) := by
  unfold groupbySum
  rw [sumVals_map_pair, sumVals_map_pair]
  induction keys with
  | nil => rfl
  | cons k ks ih =>
    simp only [List.map_cons, List.sum_cons]
    have hc : (((r :: v).filter fun x => decide (f x = k)).map Record.dose).sum =
        (if f r = k then r.dose else 0) +
          ((v.filter fun x => decide (f x = k)).map Record.dose).sum := by
      by_cases h : f r = k
      · rw [List.filter_cons_of_pos (by simpa using h), List.map_cons, List.sum_cons, if_pos h]
      · rw [List.filter_cons_of_neg (by simpa using h), if_neg h, Nat.zero_add]
    rw [hc, ih]
    omega

theorem sumVals_groupbySum (keys : List String) (f : Record → String)
    (hnd : keys.Nodup) (view : List Record) (hcov : ∀ r ∈ view, f r ∈ keys) :
    sumVals (groupbySum keys view f) = (view.map Record.dose).sum := by
  induction view with
  | nil =>
    unfold groupbySum
    rw [sumVals_map_pair]
    exact List.sum_eq_zero fun x hx => by
      rcases List.mem_map.mp hx with ⟨k, _, hval⟩
      simpa using hval.symm
  | cons r v ih =>
    rw [sumVals_groupbySum_cons,
      sum_map_ite r.dose (f r) keys hnd (hcov r (List.mem_cons_self r v)),
      List.map_cons, List.sum_cons,
      ih fun x hx => hcov x (List.mem_cons_of_mem r hx)]

theorem sumVals_perm {l l' : List (String × Nat)} (h : l.Perm l') :
    sumVals l = sumVals l' :=
  (h.map Prod.snd).sum_eq

theorem catKeys_nodup (df : List Record) (f : Record → String) :
    (catKeys df f).Nodup :=
  ((perm_sortByLe strLe (pdUnique (df.map f))).nodup_iff).mpr (nodup_pdUnique _)

theorem mem_catKeys (df : List Record) (f : Record → String) (r : Record)
    (h : r ∈ df) : f r ∈ catKeys df f := by
  rw [catKeys, (perm_sortByLe strLe (pdUnique (df.map f))).mem_iff, mem_pdUnique]
  exact List.mem_map_of_mem f h

theorem sum_doses_of_ones (v : List Record) (h : ∀ r ∈ v, r.dose = 1) :
    (v.map Record.dose).sum = v.length := by
  induction v with
  | nil => rfl
  | cons r v ih =>
    rw [List.map_cons, List.sum_cons, h r (List.mem_cons_self r v),
      ih fun x hx => h x (List.mem_cons_of_mem r hx), List.length_cons]
    omega

theorem sortDescByDose_take_drop (l : List (String × Nat)) (n : Nat) :
    ∀ p ∈ (sortDescByDose l).take n, ∀ q ∈ (sortDescByDose l).drop n, q.2 ≤ p.2 := by
  have hpair : (sortDescByDose l).Pairwise fun x y => decide (y.2 ≤ x.2) = true := by
    apply pairwise_sortByLe
    · intro x y z hxy hyz
      simp only [decide_eq_true_eq] at *
      omega
    · intro x y
      rcases Nat.le_total y.2 x.2 with h | h
      · exact Or.inl (decide_eq_true h)
      · exact Or.inr (decide_eq_true h)
  have hsplit := (List.pairwise_append.mp
    ((List.take_append_drop n (sortDescByDose l)).symm ▸ hpair)).2.2
  intro p hp q hq
  exact of_decide_eq_true (hsplit p hp q hq)

theorem runTail_rendered {df : List Record} {fs : FilterState} {s : Summary}
    (h : (runTail df fs).2 = .rendered s) :
    viewAfterIdade df fs ≠ [] ∧ s = mkSummary df (viewAfterIdade df fs) := by
  unfold runTail at h
  split at h
  · simp at h
  · set v5 := viewAfterIdade df fs with hv5
    by_cases he : v5.isEmpty
    · rw [if_pos he] at h
      simp at h
    · rw [if_neg he] at h
      refine ⟨fun hnil => he ?_, by simpa using h.symm⟩
      rw [hnil]
      rfl

theorem cascadePrefix_one (df : List Record) (fs : FilterState) :
    cascadePrefix df fs 1 = viewAfterDate df fs := rfl

theorem cascadePrefix_two (df : List Record) (fs : FilterState) :
    cascadePrefix df fs 2 = viewAfterSexo df fs := by
  show cascadeStage fs 1 (cascadePrefix df fs 1) = _
  rw [cascadePrefix_one]
  rfl

theorem cascadePrefix_three (df : List Record) (fs : FilterState) :
    cascadePrefix df fs 3 = viewAfterRacaCor df fs := by
  show cascadeStage fs 2 (cascadePrefix df fs 2) = _
  rw [cascadePrefix_two]
  rfl

theorem cascadePrefix_four (df : List Record) (fs : FilterState) :
    cascadePrefix df fs 4 = viewAfterUf df fs := by
  show cascadeStage fs 3 (cascadePrefix df fs 3) = _
  rw [cascadePrefix_three]
  rfl

/-! Concrete fixtures used by the witnesses. -/

def sampleRow1 : RawRow :=
  ⟨"15/03/2025", "F", "PARDA", "SP", "COVID", "PFIZER", "30"⟩

def sampleRow2 : RawRow :=
  ⟨"20/03/2025", "M", "BRANCA", "RJ", "GRIPE", "BUTANTAN", "xx"⟩

def sampleRows : List RawRow := [sampleRow1, sampleRow2]

def sampleDf : List Record := load_data sampleRows

def sampleFs : FilterState :=
  { date_range := [⟨2025, 3, 1⟩, ⟨2025, 3, 31⟩]
    selected_sexo := ["F", "M"]
    selected_raca_cor := ["PARDA", "BRANCA"]
    selected_uf_aplicacao := ["SP", "RJ"]
    selected_tipo_vacina := ["COVID", "GRIPE"]
    idade_range := (0, 100) }

def sampleSummary : Summary := mkSummary sampleDf (viewAfterIdade sampleDf sampleFs)

def emptySexoFs : FilterState :=
  { sampleFs with selected_sexo := [] }

def singleDateFs : FilterState :=
  { sampleFs with date_range := [⟨2025, 3, 10⟩] }

def badDateRow : RawRow :=
  ⟨"31/02/2025", "F", "PARDA", "SP", "COVID", "PFIZER", "30"⟩

def badAgeRow : RawRow :=
  ⟨"15/03/2025", "F", "PARDA", "SP", "COVID", "PFIZER", "abc"⟩

def badAgeRec : Record :=
  ⟨⟨2025, 3, 15⟩, "F", "PARDA", "SP", "COVID", "PFIZER", 0, 1⟩

def exRec (d : Date) : Record :=
  ⟨d, "F", "PARDA", "SP", "COVID", "PFIZER", 30, 1⟩

def exDf : List Record := [exRec ⟨2025, 3, 1⟩, exRec ⟨2025, 3, 15⟩, exRec ⟨2025, 3, 31⟩]

def exFs : FilterState :=
  { sampleFs with date_range := [⟨2025, 3, 2⟩, ⟨2025, 3, 30⟩] }

/-! The claims. -/

/-- C1: whenever a run of the dashboard on a loaded dataset renders (its
filtered view is non-empty), the total dose count equals the sum of the
per-state dose totals, the sum of the per-race dose totals, and the sum of
the per-sex dose totals: each grouping partitions the filtered view,
covering every row exactly once. -/
theorem sum_invariant (rows : List RawRow) (fs : FilterState) (s : Summary)
    (h : (runDashboard (load_data rows) fs).outcome = .rendered s) :
    s.total_doses = sumVals s.df_uf_doses ∧
      s.total_doses = sumVals s.df_raca_doses ∧
      s.total_doses = sumVals s.df_sexo_doses := by
  have h2 : (runTail (load_data rows) fs).2 = .rendered s := h
  rcases runTail_rendered h2 with ⟨-, hs⟩
  subst hs
  have hsub : (viewAfterIdade (load_data rows) fs).Sublist (load_data rows) :=
    viewAfterIdade_sublist _ _
  have hdose : ∀ r ∈ viewAfterIdade (load_data rows) fs, r.dose = 1 :=
    fun r hr => dose_of_mem_load_data (hsub.subset hr)
  simp only [mkSummary, sortDescByDose]
  refine ⟨?_, ?_, ?_⟩
  · rw [sumVals_perm (perm_sortByLe _ _),
      sumVals_groupbySum _ _ (catKeys_nodup _ _) _
        (fun r hr => mem_catKeys _ _ r (hsub.subset hr)),
      sum_doses_of_ones _ hdose]
  · rw [sumVals_groupbySum _ _ (catKeys_nodup _ _) _
        (fun r hr => mem_catKeys _ _ r (hsub.subset hr)),
      sum_doses_of_ones _ hdose]
  · rw [sumVals_groupbySum _ _ (catKeys_nodup _ _) _
        (fun r hr => mem_catKeys _ _ r (hsub.subset hr)),
      sum_doses_of_ones _ hdose]

theorem sum_invariant_witness :
    sampleSummary.total_doses = sumVals sampleSummary.df_uf_doses ∧
      sampleSummary.total_doses = sumVals sampleSummary.df_raca_doses ∧
      sampleSummary.total_doses = sumVals sampleSummary.df_sexo_doses :=
  sum_invariant sampleRows sampleFs sampleSummary (by decide)

/-- C2: an empty categorical selection does empty the corresponding stage's
view, but the run then dies in the slider-bound crash; the empty-result
signal the specification promises is never produced. -/
theorem empty_selection_no_empty_result :
    viewAfterSexo sampleDf emptySexoFs = [] ∧
      (runDashboard sampleDf emptySexoFs).outcome = .sliderCrash ∧
      (runDashboard sampleDf emptySexoFs).outcome ≠ .emptyResult := by
  decide

/-- C3: the option list each multiselect offers for a dimension equals the
distinct values of that dimension over the view produced by exactly the
cascade stages strictly preceding it (date, then sex, then race, then
facility state, then vaccine type). -/
theorem options_cascade (df : List Record) (fs : FilterState) :
    (runDashboard df fs).options_sexo =
        pdUnique ((cascadePrefix df fs (dimStageIndex .sexo)).map (dimProj .sexo)) ∧
      (runDashboard df fs).options_raca_cor =
        pdUnique ((cascadePrefix df fs (dimStageIndex .racaCor)).map (dimProj .racaCor)) ∧
      (runDashboard df fs).options_uf_aplicacao =
        pdUnique ((cascadePrefix df fs (dimStageIndex .ufAplicacao)).map
          (dimProj .ufAplicacao)) ∧
      (runDashboard df fs).options_tipo_vacina =
        pdUnique ((cascadePrefix df fs (dimStageIndex .tipoVacina)).map
          (dimProj .tipoVacina)) := by
  refine ⟨?_, ?_, ?_, ?_⟩
  · rw [show dimStageIndex .sexo = 1 from rfl, cascadePrefix_one]
    rfl
  · rw [show dimStageIndex .racaCor = 2 from rfl, cascadePrefix_two]
    rfl
  · rw [show dimStageIndex .ufAplicacao = 3 from rfl, cascadePrefix_three]
    rfl
  · rw [show dimStageIndex .tipoVacina = 4 from rfl, cascadePrefix_four]
    rfl

/-- C4: over any dataset and non-empty filtered view, the top-10
manufacturer table has at most 10 entries, and every entry's summed dose
count is at least the summed dose count of every manufacturer row the
truncation excluded. -/
theorem top10_truncation (df view : List Record) (_hne : view ≠ []) :
    (mkSummary df view).df_fabricante_doses.length ≤ 10 ∧
      ∀ p ∈ (mkSummary df view).df_fabricante_doses,
        ∀ q ∈ (sortDescByDose (groupbySum (catKeys df Record.ds_vacina_fabricante) view
            Record.ds_vacina_fabricante)).drop 10,
          q.2 ≤ p.2 := by
  simp only [mkSummary]
  exact ⟨List.length_take_le 10 _, sortDescByDose_take_drop _ 10⟩

theorem top10_truncation_witness :
    (mkSummary sampleDf sampleDf).df_fabricante_doses.length ≤ 10 :=
  (top10_truncation sampleDf sampleDf (by decide)).1

/-- C5: the dose-total display is the comma-grouped integer below one
million and the value divided by one million, rounded to two decimals with
the Mi label, above one million; 999999 renders as the literal "999,999"
and 1200000 as "1.20 Mi". -/
theorem display_threshold :
    (∀ n : Nat, n < 1000000 → formatTotalDoses n = commaSep n) ∧
      (∀ n : Nat, 1000000 < n → formatTotalDoses n = fixed2Mi n) ∧
      formatTotalDoses 999999 = "999,999" ∧
      formatTotalDoses 1200000 = "1.20 Mi" := by
  refine ⟨fun n h => ?_, fun n h => ?_, by decide, by decide⟩
  · rw [formatTotalDoses, if_pos h]
  · rw [formatTotalDoses, if_neg (by omega)]

theorem display_threshold_witness :
    formatTotalDoses 999999 = commaSep 999999 ∧
      formatTotalDoses 1200000 = fixed2Mi 1200000 :=
  ⟨display_threshold.1 999999 (by omega), display_threshold.2.1 1200000 (by omega)⟩

/-- C6: every record of the loaded dataset carries a date obtained from a
successful parse of its source row under the fixed day/month/year pattern;
a row whose date does not parse is dropped by normalization; and the fully
filtered view is a sublist of the dataset, so no downstream stage can
reintroduce a dropped row. -/
theorem valid_dates_only (rows : List RawRow) (fs : FilterState) :
    (∀ rec ∈ load_data rows, ∃ raw ∈ rows,
        parseDate raw.dt_vacina = some rec.dt_vacina) ∧
      (∀ raw ∈ rows, parseDate raw.dt_vacina = none → normalizeRow raw = none) ∧
      (viewAfterIdade (load_data rows) fs).Sublist (load_data rows) := by
  refine ⟨?_, ?_, viewAfterIdade_sublist _ _⟩
  · intro rec hrec
    rcases mem_load_data hrec with ⟨raw, hmem, hn⟩
    exact ⟨raw, hmem, (normalizeRow_some hn).1⟩
  · intro raw _ hnone
    unfold normalizeRow
    rw [hnone]
    rfl

theorem valid_dates_only_witness : normalizeRow badDateRow = none :=
  (valid_dates_only [badDateRow] sampleFs).2.1 badDateRow (by decide) (by decide)

/-- C7: a row whose age text fails numeric parsing but whose date parses
enters the loaded dataset as a record with age 0, and the inclusive age
filter over the closed interval [0, 0] includes that record. -/
theorem age_coercion (raw : RawRow) (rows : List RawRow) (rec : Record)
    (ha : parseAge raw.nu_idade_paciente = none)
    (hn : normalizeRow raw = some rec)
    (hmem : raw ∈ rows) :
    rec ∈ load_data rows ∧ rec.nu_idade_paciente = 0 ∧ agePass 0 0 rec = true := by
  have hage : rec.nu_idade_paciente = 0 := by
    rw [(normalizeRow_some hn).2.1, ha]
    rfl
  refine ⟨List.mem_filterMap.mpr ⟨raw, hmem, hn⟩, hage, ?_⟩
  simp [agePass, hage]

theorem age_coercion_witness :
    badAgeRec ∈ load_data [badAgeRow] ∧ badAgeRec.nu_idade_paciente = 0 ∧
      agePass 0 0 badAgeRec = true :=
  age_coercion badAgeRow [badAgeRow] badAgeRec (by decide) (by decide) (by decide)

/-- C8: with both endpoints selected, the date stage keeps exactly the
rows whose date lies in the inclusive interval (dates carry no time
component, so the comparison is date-only by construction); of rows dated
2025-03-01, 2025-03-15 and 2025-03-31, the filter [2025-03-02, 2025-03-30]
keeps exactly the middle one. -/
theorem date_boundary (df : List Record) (fs : FilterState) (s e : Date)
    (h : fs.date_range = [s, e]) :
    (∀ r : Record, r ∈ viewAfterDate df fs ↔
        r ∈ df ∧ (Date.le s r.dt_vacina && Date.le r.dt_vacina e) = true) ∧
      viewAfterDate exDf exFs = [exRec ⟨2025, 3, 15⟩] := by
  constructor
  · intro r
    unfold viewAfterDate
    rw [h]
    exact List.mem_filter
  · decide

theorem date_boundary_witness :
    viewAfterDate exDf exFs = [exRec ⟨2025, 3, 15⟩] :=
  (date_boundary exDf exFs ⟨2025, 3, 2⟩ ⟨2025, 3, 30⟩ (by decide)).2

/-- C9: whenever the view reaching the age stage is empty (for instance
because an earlier categorical selection was empty), the slider-bound
computation fails — the crash outcome — so execution never reaches the
post-filter emptiness check that would signal the empty-result state. -/
theorem empty_view_slider_crash (df : List Record) (fs : FilterState)
    (h : viewAfterVacina df fs = []) :
    (runDashboard df fs).outcome = .sliderCrash ∧
      (runDashboard df fs).outcome ≠ .emptyResult := by
  have hcrash : (runTail df fs).2 = .sliderCrash := by
    unfold runTail
    rw [h]
  refine ⟨hcrash, ?_⟩
  have houtcome : (runDashboard df fs).outcome = (runTail df fs).2 := rfl
  rw [houtcome, hcrash]
  exact fun hc => RunOutcome.noConfusion hc

theorem empty_view_slider_crash_witness :
    (runDashboard sampleDf emptySexoFs).outcome = .sliderCrash :=
  (empty_view_slider_crash sampleDf emptySexoFs (by decide)).1

/-- C10: when the date widget holds fewer than two endpoints the date
stage is skipped: the base view is the dataset itself, unchanged, the sex
multiselect draws its options from the full dataset, and the sex filter
(and with it every later stage) starts from the full dataset. -/
theorem single_date_skips (df : List Record) (fs : FilterState)
    (h : fs.date_range.length < 2) :
    viewAfterDate df fs = df ∧
      (runDashboard df fs).options_sexo = pdUnique (df.map Record.tp_sexo_paciente) ∧
      viewAfterSexo df fs =
        df.filter fun r => decide (r.tp_sexo_paciente ∈ fs.selected_sexo) := by
  have hbase : viewAfterDate df fs = df := by
    unfold viewAfterDate
    split
    · rename_i s e heq
      rw [heq] at h
      simp at h
    · rfl
  refine ⟨hbase, ?_, ?_⟩
  · show pdUnique ((viewAfterDate df fs).map Record.tp_sexo_paciente) = _
    rw [hbase]
  · unfold viewAfterSexo
    rw [hbase]

theorem single_date_skips_witness :
    viewAfterDate sampleDf singleDateFs = sampleDf :=
  (single_date_skips sampleDf singleDateFs (by decide)).1

end RegistroVacinacao
